import Mathlib

/-!
Shallow embedding of `tank_battle.py`: a two-player terminal tank game.
Coordinates are integers, timestamps are rationals (seconds).  Each Python
class becomes a structure (the `GameObject` base fields `x`, `y`, `symbol`,
`alive` are inlined into each subclass), in-place mutation becomes explicit
state passing, and `time.time()` is threaded through as a `now : ℚ` argument.
-/

/-- The four cardinal directions (`Direction` enum in the source). -/
inductive Direction where
  | up
  | down
  | left
  | right
deriving DecidableEq

/-- `Direction.value`: the `(dx, dy)` step of each direction. -/
def Direction.value : Direction → Int × Int
  | .up => (0, -1)
  | .down => (0, 1)
  | .left => (-1, 0)
  | .right => (1, 0)

/-- `Bullet`: a projectile.  Inherits `x`, `y`, `symbol`, `alive` from
`GameObject`; adds its fixed direction, its move interval (`speed`, 0.1 s)
and the time of its last move. -/
structure Bullet where
  x : Int
  y : Int
  symbol : Char
  alive : Bool
  direction : Direction
  speed : ℚ
  last_move_time : ℚ
deriving DecidableEq

/-- `Bullet.__init__(x, y, direction)`: glyph `•`, alive, speed 0.1,
`last_move_time = time.time()` (the creation instant `now`). -/
def Bullet.init (x y : Int) (direction : Direction) (now : ℚ) : Bullet :=
  { x := x, y := y, symbol := '•', alive := true, direction := direction,
    speed := 1/10, last_move_time := now }

/-- `Bullet.update(max_x, max_y)`: if more than `speed` seconds elapsed since
the last move, step one cell along the fixed direction, record the move time,
and die when the new position touches or crosses the border. -/
def Bullet.update (b : Bullet) (now : ℚ) (max_x max_y : Int) : Bullet :=
  if now - b.last_move_time > b.speed then
    let d := b.direction.value
    let b' : Bullet := { b with x := b.x + d.1, y := b.y + d.2, last_move_time := now }
    if b'.x ≤ 0 ∨ b'.x ≥ max_x - 1 ∨ b'.y ≤ 0 ∨ b'.y ≥ max_y - 1 then
      { b' with alive := false }
    else b'
  else b

/-- `Tank`: a player tank.  Inherits `x`, `y`, `symbol`, `alive`; adds
heading, colour pair, health (3), last-shot time and the 0.5 s cooldown. -/
structure Tank where
  x : Int
  y : Int
  symbol : Char
  alive : Bool
  direction : Direction
  color_pair : Int
  health : Int
  last_shot_time : ℚ
  shot_cooldown : ℚ
deriving DecidableEq

/-- `Tank.__init__(x, y, symbol, color_pair)`. -/
def Tank.init (x y : Int) (symbol : Char) (color_pair : Int) : Tank :=
  { x := x, y := y, symbol := symbol, alive := true, direction := .up,
    color_pair := color_pair, health := 3, last_shot_time := 0,
    shot_cooldown := 1/2 }

/-- `Tank.move(dx, dy, max_x, max_y)`: step only when the new position stays
strictly inside the border; on an accepted step also update heading and glyph
from the sign of the step. -/
def Tank.move (t : Tank) (dx dy max_x max_y : Int) : Tank :=
  let new_x := t.x + dx
  let new_y := t.y + dy
  if 0 < new_x ∧ new_x < max_x - 1 ∧ 0 < new_y ∧ new_y < max_y - 1 then
    let t' : Tank := { t with x := new_x, y := new_y }
    if dx > 0 then { t' with direction := .right, symbol := '>' }
    else if dx < 0 then { t' with direction := .left, symbol := '<' }
    else if dy > 0 then { t' with direction := .down, symbol := 'v' }
    else if dy < 0 then { t' with direction := .up, symbol := '^' }
    else t'
  else t

/-- `Tank.can_shoot()`: true (recording `now` as the last shot time) iff more
than `shot_cooldown` seconds elapsed since the last shot. -/
def Tank.can_shoot (t : Tank) (now : ℚ) : Bool × Tank :=
  if now - t.last_shot_time > t.shot_cooldown then
    (true, { t with last_shot_time := now })
  else (false, t)

/-- `Tank.shoot()`: when the cooldown allows, spawn one bullet one cell ahead
in the tank's heading, carrying that heading. -/
def Tank.shoot (t : Tank) (now : ℚ) : Option Bullet × Tank :=
  let r := t.can_shoot now
  if r.1 then
    let d := r.2.direction.value
    (some (Bullet.init (r.2.x + d.1) (r.2.y + d.2) r.2.direction now), r.2)
  else (none, r.2)

/-- `Tank.hit()`: lose one health; at zero or below, die. -/
def Tank.hit (t : Tank) : Tank :=
  let t' : Tank := { t with health := t.health - 1 }
  if t'.health ≤ 0 then { t' with alive := false } else t'

/-- `Obstacle`: a static destructible block (glyph `#`). -/
structure Obstacle where
  x : Int
  y : Int
  symbol : Char
  alive : Bool
  destructible : Bool
deriving DecidableEq

/-- `Obstacle.__init__(x, y)`. -/
def Obstacle.init (x y : Int) : Obstacle :=
  { x := x, y := y, symbol := '#', alive := true, destructible := true }

/-- `Game`: the session.  Owns the two tanks, the bullet and obstacle
collections, the game-over flag and the winner banner text. -/
structure Game where
  max_x : Int
  max_y : Int
  player1 : Tank
  player2 : Tank
  bullets : List Bullet
  obstacles : List Obstacle
  game_over : Bool
  winner : Option String
deriving DecidableEq

/-- `Game.__init__` / `Game.init_game`: the two tanks at their fixed spawn
points, the obstacles at the given (randomly drawn in the source) positions,
no bullets, game running.  `max_y / 2` is Python's `max_y // 2` (they agree
on the nonnegative screen sizes in play). -/
def Game.init (max_x max_y : Int) (obstacle_positions : List (Int × Int)) : Game :=
  { max_x := max_x, max_y := max_y,
    player1 := Tank.init 5 (max_y / 2) '^' 1,
    player2 := Tank.init (max_x - 5) (max_y / 2) '^' 2,
    bullets := [],
    obstacles := obstacle_positions.map (fun p => Obstacle.init p.1 p.2),
    game_over := false, winner := none }

/-- Key code of `w`. -/
def keyW : Int := 119

/-- Key code of `s`. -/
def keyS : Int := 115

/-- Key code of `a`. -/
def keyA : Int := 97

/-- Key code of `d`. -/
def keyD : Int := 100

/-- Key code of the space bar. -/
def keySpace : Int := 32

/-- `curses.KEY_UP`. -/
def keyUp : Int := 259

/-- `curses.KEY_DOWN`. -/
def keyDown : Int := 258

/-- `curses.KEY_LEFT`. -/
def keyLeft : Int := 260

/-- `curses.KEY_RIGHT`. -/
def keyRight : Int := 261

/-- Key code of Enter (`\n`). -/
def keyEnter : Int := 10

/-- Key code of `q`. -/
def keyQ : Int := 113

/-- `Game.handle_input(key)`: `-1` (no pending key) is a no-op; otherwise the
single key dispatches through the `if`/`elif` chain to one player-1 action,
one player-2 action, quit, or nothing. -/
def Game.handle_input (g : Game) (key : Int) (now : ℚ) : Game :=
  if key = -1 then g
  else if key = keyW then { g with player1 := g.player1.move 0 (-1) g.max_x g.max_y }
  else if key = keyS then { g with player1 := g.player1.move 0 1 g.max_x g.max_y }
  else if key = keyA then { g with player1 := g.player1.move (-1) 0 g.max_x g.max_y }
  else if key = keyD then { g with player1 := g.player1.move 1 0 g.max_x g.max_y }
  else if key = keySpace then
    match g.player1.shoot now with
    | (some b, t') => { g with player1 := t', bullets := g.bullets ++ [b] }
    | (none, t') => { g with player1 := t' }
  else if key = keyUp then { g with player2 := g.player2.move 0 (-1) g.max_x g.max_y }
  else if key = keyDown then { g with player2 := g.player2.move 0 1 g.max_x g.max_y }
  else if key = keyLeft then { g with player2 := g.player2.move (-1) 0 g.max_x g.max_y }
  else if key = keyRight then { g with player2 := g.player2.move 1 0 g.max_x g.max_y }
  else if key = keyEnter then
    match g.player2.shoot now with
    | (some b, t') => { g with player2 := t', bullets := g.bullets ++ [b] }
    | (none, t') => { g with player2 := t' }
  else if key = keyQ then { g with game_over := true }
  else g

/-- The state mutated by `Game.check_collisions` while iterating over the
bullets: both tanks, the obstacle list, the game-over flag and the winner. -/
structure CollisionAcc where
  player1 : Tank
  player2 : Tank
  obstacles : List Obstacle
  game_over : Bool
  winner : Option String
deriving DecidableEq

/-- One bullet-versus-tank block of `Game.check_collisions`: when the tank is
alive and the bullet is at its exact coordinates, apply the hit, mark the
bullet dead, and if the tank died record `win` as winner and end the game.
Note the source does not re-test `bullet.alive` here. -/
def bulletVsTank (tk : Tank) (b : Bullet) (win : String) (go : Bool)
    (w : Option String) : Tank × Bullet × Bool × Option String :=
  if tk.alive = true ∧ b.x = tk.x ∧ b.y = tk.y then
    let tk' := tk.hit
    let b' : Bullet := { b with alive := false }
    if tk'.alive = true then (tk', b', go, w) else (tk', b', true, some win)
  else (tk, b, go, w)

/-- The effect of one bullet on one obstacle in the obstacle loop of
`Game.check_collisions`: an alive obstacle at the bullet's coordinates is
destroyed when destructible; any other obstacle is untouched. -/
def obstacleHit (b : Bullet) (o : Obstacle) : Obstacle :=
  if o.alive = true ∧ b.x = o.x ∧ b.y = o.y then
    (if o.destructible then { o with alive := false } else o)
  else o

/-- The bullet-versus-obstacles loop of `Game.check_collisions`: every alive
obstacle at the bullet's coordinates kills the bullet and, being
destructible, is destroyed.  The source does not re-test `bullet.alive`
here either. -/
def bulletVsObstacles (obs : List Obstacle) (b : Bullet) : List Obstacle × Bullet :=
  (obs.map (obstacleHit b),
   if obs.any (fun o => o.alive && decide (b.x = o.x) && decide (b.y = o.y)) then
     { b with alive := false }
   else b)

/-- The body of the bullet loop in `Game.check_collisions` for one bullet:
dead bullets are skipped (`continue`); otherwise the bullet is tested against
player 1, then player 2, then every obstacle. -/
def checkBullet (acc : CollisionAcc) (b : Bullet) : CollisionAcc × Bullet :=
  if b.alive = false then (acc, b)
  else
    let r1 := bulletVsTank acc.player1 b "Player 2" acc.game_over acc.winner
    let r2 := bulletVsTank acc.player2 r1.2.1 "Player 1" r1.2.2.1 r1.2.2.2
    let r3 := bulletVsObstacles acc.obstacles r2.2.1
    ({ player1 := r1.1, player2 := r2.1, obstacles := r3.1,
       game_over := r2.2.2.1, winner := r2.2.2.2 }, r3.2)

/-- The bullet loop of `Game.check_collisions`, threading the accumulator
left to right and returning the processed bullets in order. -/
def checkBulletsLoop : CollisionAcc → List Bullet → CollisionAcc × List Bullet
  | acc, [] => (acc, [])
  | acc, b :: bs =>
    let r := checkBullet acc b
    let rest := checkBulletsLoop r.1 bs
    (rest.1, r.2 :: rest.2)

/-- The collision accumulator read off a game state. -/
def Game.collisionAcc (g : Game) : CollisionAcc :=
  { player1 := g.player1, player2 := g.player2, obstacles := g.obstacles,
    game_over := g.game_over, winner := g.winner }

/-- `Game.check_collisions()`: run the bullet loop, then compact: drop dead
bullets and destroyed obstacles. -/
def Game.check_collisions (g : Game) : Game :=
  let r := checkBulletsLoop g.collisionAcc g.bullets
  { g with player1 := r.1.player1, player2 := r.1.player2,
           bullets := r.2.filter (fun b => b.alive),
           obstacles := r.1.obstacles.filter (fun o => o.alive),
           game_over := r.1.game_over, winner := r.1.winner }

/-- `Game.update()`: advance every bullet, then resolve collisions. -/
def Game.update (g : Game) (now : ℚ) : Game :=
  ({ g with bullets := g.bullets.map (fun b => b.update now g.max_x g.max_y)
   } : Game).check_collisions

/-- One iteration of `Game.run`'s loop (minus drawing and sleeping): read one
key — at most one pending input per tick — handle it, update. -/
def Game.step (g : Game) (key : Int) (now : ℚ) : Game :=
  (g.handle_input key now).update now

/-- The session states reachable from some initial game by ticks. -/
inductive Reachable : Game → Prop
  | init : ∀ (max_x max_y : Int) (ops : List (Int × Int)),
      Reachable (Game.init max_x max_y ops)
  | step : ∀ (g : Game) (key : Int) (now : ℚ),
      Reachable g → Reachable (g.step key now)

/-- A logical per-player action (spec §6: movement and fire). -/
inductive PlayerAction where
  | moveUp
  | moveDown
  | moveLeft
  | moveRight
  | fire
deriving DecidableEq

/-- A logical game action: one action of one player, or the global quit. -/
inductive GameAction where
  | p1 (a : PlayerAction)
  | p2 (a : PlayerAction)
  | quit
deriving DecidableEq

/-- Modelled from the spec: each key token decodes to at most one logical
action of one player (or the global quit); absent input decodes to none. -/
def specKeyAction (key : Int) : Option GameAction :=
  if key = -1 then none
  else if key = keyW then some (.p1 .moveUp)
  else if key = keyS then some (.p1 .moveDown)
  else if key = keyA then some (.p1 .moveLeft)
  else if key = keyD then some (.p1 .moveRight)
  else if key = keySpace then some (.p1 .fire)
  else if key = keyUp then some (.p2 .moveUp)
  else if key = keyDown then some (.p2 .moveDown)
  else if key = keyLeft then some (.p2 .moveLeft)
  else if key = keyRight then some (.p2 .moveRight)
  else if key = keyEnter then some (.p2 .fire)
  else if key = keyQ then some .quit
  else none

/-- Modelled from the spec: apply one logical action to the owning tank
(movement calls `move`; fire calls `shoot` and appends the spawned bullet). -/
def applyPlayerAction (t : Tank) (bullets : List Bullet) (a : PlayerAction)
    (max_x max_y : Int) (now : ℚ) : Tank × List Bullet :=
  match a with
  | .moveUp => (t.move 0 (-1) max_x max_y, bullets)
  | .moveDown => (t.move 0 1 max_x max_y, bullets)
  | .moveLeft => (t.move (-1) 0 max_x max_y, bullets)
  | .moveRight => (t.move 1 0 max_x max_y, bullets)
  | .fire =>
    match t.shoot now with
    | (some b, t') => (t', bullets ++ [b])
    | (none, t') => (t', bullets)

/-- Modelled from the spec: dispatch of a decoded action to the owning
player, a quit transition, or a no-op. -/
def applyGameAction (g : Game) (a : Option GameAction) (now : ℚ) : Game :=
  match a with
  | none => g
  | some .quit => { g with game_over := true }
  | some (.p1 a) =>
    let r := applyPlayerAction g.player1 g.bullets a g.max_x g.max_y now
    { g with player1 := r.1, bullets := r.2 }
  | some (.p2 a) =>
    let r := applyPlayerAction g.player2 g.bullets a g.max_x g.max_y now
    { g with player2 := r.1, bullets := r.2 }

/-- A session state with both tanks, one obstacle and one live bullet all on
the cell (5, 5): the tanks may overlap since no tank-vs-tank collision
exists. -/
def overlapGame : Game :=
  { max_x := 80, max_y := 24,
    player1 := { x := 5, y := 5, symbol := '^', alive := true, direction := .up,
                 color_pair := 1, health := 3, last_shot_time := 0,
                 shot_cooldown := 1/2 },
    player2 := { x := 5, y := 5, symbol := '^', alive := true, direction := .up,
                 color_pair := 2, health := 3, last_shot_time := 0,
                 shot_cooldown := 1/2 },
    bullets := [{ x := 5, y := 5, symbol := '•', alive := true, direction := .up,
                  speed := 1/10, last_move_time := 0 }],
    obstacles := [Obstacle.init 5 5],
    game_over := false, winner := none }

/-- The spec's tank invariant: health within [0,3] and alive exactly when
health is positive. -/
def TankInv (t : Tank) : Prop :=
  0 ≤ t.health ∧ t.health ≤ 3 ∧ (t.alive = true ↔ 0 < t.health)

/-- The spec's session invariant: both tanks satisfy the tank invariant. -/
def Game.Inv (g : Game) : Prop :=
  TankInv g.player1 ∧ TankInv g.player2

/-- A concrete session for the C5 witness: player 1 at (5, 5) with health 1,
a live bullet on the same cell, player 2 far away at (10, 10). -/
def gC5 : Game :=
  { max_x := 80, max_y := 24,
    player1 := { Tank.init 5 5 '^' 1 with health := 1 },
    player2 := Tank.init 10 10 '^' 2,
    bullets := [Bullet.init 5 5 Direction.up 0],
    obstacles := [], game_over := false, winner := none }

/-- The obstacle of the C7 witness session, at (7, 7). -/
def oC7 : Obstacle := Obstacle.init 7 7

/-- The bullet of the C7 witness session, live on the obstacle cell. -/
def bC7 : Bullet := Bullet.init 7 7 Direction.up 0

/-- A concrete session for the C7 witness: one live bullet on the cell of
one alive obstacle, both tanks elsewhere. -/
def gC7 : Game :=
  { max_x := 80, max_y := 24,
    player1 := Tank.init 3 3 '^' 1,
    player2 := Tank.init 10 10 '^' 2,
    bullets := [bC7], obstacles := [oC7],
    game_over := false, winner := none }

/-- A collision accumulator for the C1 witness: tanks on distinct cells,
no obstacles. -/
def accC1 : CollisionAcc :=
  { player1 := Tank.init 3 3 '^' 1, player2 := Tank.init 10 10 '^' 2,
    obstacles := [], game_over := false, winner := none }

/-- The bullet of the C1 witness, on player 1's cell. -/
def bC1 : Bullet := Bullet.init 3 3 Direction.up 0

/-- The tank of the C10 witness: adjacent to the left border, facing it. -/
def tC10 : Tank := { Tank.init 1 5 '^' 1 with direction := Direction.left }

theorem handleInput_spec (g : Game) (key : Int) (now : ℚ) :
    g.handle_input key now = applyGameAction g (specKeyAction key) now := by
    by_cases h1 : key = -1
    · subst h1
      norm_num [Game.handle_input, specKeyAction, applyGameAction]
    · by_cases h2 : key = keyW
      · subst h2
        norm_num [Game.handle_input, specKeyAction, applyGameAction, applyPlayerAction,
          keyW]
      · by_cases h3 : key = keyS
        · subst h3
          norm_num [Game.handle_input, specKeyAction, applyGameAction, applyPlayerAction,
            keyW, keyS]
        · by_cases h4 : key = keyA
          · subst h4
            norm_num [Game.handle_input, specKeyAction, applyGameAction, applyPlayerAction,
              keyW, keyS, keyA]
          · by_cases h5 : key = keyD
            · subst h5
              norm_num [Game.handle_input, specKeyAction, applyGameAction, applyPlayerAction,
                keyW, keyS, keyA, keyD]
            · by_cases h6 : key = keySpace
              · subst h6
                rcases hs : g.player1.shoot now with ⟨ob, t'⟩
                cases ob <;>
                  norm_num [Game.handle_input, specKeyAction, applyGameAction,
                    applyPlayerAction, keyW, keyS, keyA, keyD, keySpace, hs]
              · by_cases h7 : key = keyUp
                · subst h7
                  norm_num [Game.handle_input, specKeyAction, applyGameAction,
                    applyPlayerAction, keyW, keyS, keyA, keyD, keySpace, keyUp]
                · by_cases h8 : key = keyDown
                  · subst h8
                    norm_num [Game.handle_input, specKeyAction, applyGameAction,
                      applyPlayerAction, keyW, keyS, keyA, keyD, keySpace, keyUp, keyDown]
                  · by_cases h9 : key = keyLeft
                    · subst h9
                      norm_num [Game.handle_input, specKeyAction, applyGameAction,
                        applyPlayerAction, keyW, keyS, keyA, keyD, keySpace, keyUp,
                        keyDown, keyLeft]
                    · by_cases h10 : key = keyRight
                      · subst h10
                        norm_num [Game.handle_input, specKeyAction, applyGameAction,
                          applyPlayerAction, keyW, keyS, keyA, keyD, keySpace, keyUp,
                          keyDown, keyLeft, keyRight]
                      · by_cases h11 : key = keyEnter
                        · subst h11
                          rcases hs : g.player2.shoot now with ⟨ob, t'⟩
                          cases ob <;>
                            norm_num [Game.handle_input, specKeyAction, applyGameAction,
                              applyPlayerAction, keyW, keyS, keyA, keyD, keySpace, keyUp,
                              keyDown, keyLeft, keyRight, keyEnter, hs]
                        · by_cases h12 : key = keyQ
                          · subst h12
                            norm_num [Game.handle_input, specKeyAction, applyGameAction,
                              applyPlayerAction, keyW, keyS, keyA, keyD, keySpace, keyUp,
                              keyDown, keyLeft, keyRight, keyEnter, keyQ]
                          · simp only [Game.handle_input, specKeyAction, applyGameAction,
                              if_neg h1, if_neg h2, if_neg h3, if_neg h4, if_neg h5,
                              if_neg h6, if_neg h7, if_neg h8, if_neg h9, if_neg h10,
                              if_neg h11, if_neg h12]

theorem checkBullet_dead (acc : CollisionAcc) (b : Bullet) (hb : b.alive = false) :
    checkBullet acc b = (acc, b) := by
  unfold checkBullet
  rw [if_pos hb]

theorem checkBullet_alive (acc : CollisionAcc) (b : Bullet) (hb : b.alive = true) :
    checkBullet acc b =
      (let r1 := bulletVsTank acc.player1 b "Player 2" acc.game_over acc.winner
       let r2 := bulletVsTank acc.player2 r1.2.1 "Player 1" r1.2.2.1 r1.2.2.2
       let r3 := bulletVsObstacles acc.obstacles r2.2.1
       ({ player1 := r1.1, player2 := r2.1, obstacles := r3.1,
          game_over := r2.2.2.1, winner := r2.2.2.2 }, r3.2)) := by
  unfold checkBullet
  rw [if_neg (by simp [hb])]

theorem bulletVsTank_not_hit (tk : Tank) (b : Bullet) (win : String) (go : Bool)
    (w : Option String) (h : ¬(tk.alive = true ∧ b.x = tk.x ∧ b.y = tk.y)) :
    bulletVsTank tk b win go w = (tk, b, go, w) := by
  unfold bulletVsTank
  rw [if_neg h]

theorem bulletVsTank_bullet_pos (tk : Tank) (b : Bullet) (win : String) (go : Bool)
    (w : Option String) :
    (bulletVsTank tk b win go w).2.1.x = b.x ∧ (bulletVsTank tk b win go w).2.1.y = b.y := by
  unfold bulletVsTank
  dsimp only
  split_ifs <;> exact ⟨rfl, rfl⟩

theorem bulletVsObstacles_not_hit (obs : List Obstacle) (b : Bullet)
    (h : ∀ o ∈ obs, ¬(o.alive = true ∧ b.x = o.x ∧ b.y = o.y)) :
    bulletVsObstacles obs b = (obs, b) := by
  have h1 : obs.map (obstacleHit b) = obs := by
    conv_rhs => rw [← List.map_id obs]
    exact List.map_congr_left fun o ho => by unfold obstacleHit; rw [if_neg (h o ho)]; rfl
  have h2 : (obs.any fun o => o.alive && decide (b.x = o.x) && decide (b.y = o.y)) = false := by
    rw [List.any_eq_false]
    intro o ho
    simp only [Bool.and_eq_true, decide_eq_true_eq, not_and]
    intro ha hy
    exact h o ho ⟨ha.1, ha.2, hy⟩
  unfold bulletVsObstacles
  rw [h1, h2]
  simp

theorem TankInv_of_eq (t t' : Tank) (hh : t'.health = t.health)
    (ha : t'.alive = t.alive) (h : TankInv t) : TankInv t' := by
  unfold TankInv at h ⊢
  rw [hh, ha]
  exact h

theorem hit_fields (t : Tank) :
    t.hit.health = t.health - 1 ∧ t.hit.x = t.x ∧ t.hit.y = t.y ∧
    (t.hit.alive = true ↔ t.alive = true ∧ 0 < t.health - 1) := by
  unfold Tank.hit
  dsimp only
  by_cases hc : t.health - 1 ≤ 0
  · rw [if_pos hc]
    refine ⟨rfl, rfl, rfl, ?_⟩
    simp only [Bool.false_eq_true, false_iff, not_and]
    intro _
    omega
  · rw [if_neg hc]
    refine ⟨rfl, rfl, rfl, ?_⟩
    exact ⟨fun ha => ⟨ha, by omega⟩, fun h => h.1⟩

theorem TankInv_hit (t : Tank) (ht : TankInv t) (ha : t.alive = true) :
    TankInv t.hit := by
  obtain ⟨h1, h2, h3⟩ := ht
  have h4 : 0 < t.health := h3.mp ha
  obtain ⟨e1, -, -, e4⟩ := hit_fields t
  refine ⟨by omega, by omega, ?_⟩
  rw [e4, e1]
  exact ⟨fun h => h.2, fun h => ⟨ha, h⟩⟩

theorem bulletVsTank_tank_cases (tk : Tank) (b : Bullet) (win : String) (go : Bool)
    (w : Option String) :
    (bulletVsTank tk b win go w).1 = tk ∨
    (tk.alive = true ∧ (bulletVsTank tk b win go w).1 = tk.hit) := by
  unfold bulletVsTank
  dsimp only
  split_ifs with h1 h2
  · exact Or.inr ⟨h1.1, rfl⟩
  · exact Or.inr ⟨h1.1, rfl⟩
  · exact Or.inl rfl

theorem bulletVsTank_inv (tk : Tank) (b : Bullet) (win : String) (go : Bool)
    (w : Option String) :
    (bulletVsTank tk b win go w).1.health ≤ tk.health ∧
    (bulletVsTank tk b win go w).1.x = tk.x ∧
    (bulletVsTank tk b win go w).1.y = tk.y ∧
    (TankInv tk → TankInv (bulletVsTank tk b win go w).1) ∧
    (tk.alive = false → (bulletVsTank tk b win go w).1 = tk) := by
  rcases bulletVsTank_tank_cases tk b win go w with h | ⟨ha, h⟩
  · rw [h]
    exact ⟨le_refl _, rfl, rfl, fun hi => hi, fun _ => rfl⟩
  · rw [h]
    obtain ⟨e1, e2, e3, -⟩ := hit_fields tk
    refine ⟨by omega, e2, e3, fun hi => TankInv_hit tk hi ha, fun hf => ?_⟩
    rw [hf] at ha
    cases ha

theorem checkBullet_players (acc : CollisionAcc) (b : Bullet) :
    (checkBullet acc b).1.player1.health ≤ acc.player1.health ∧
    (checkBullet acc b).1.player2.health ≤ acc.player2.health ∧
    (checkBullet acc b).1.player1.x = acc.player1.x ∧
    (checkBullet acc b).1.player1.y = acc.player1.y ∧
    (checkBullet acc b).1.player2.x = acc.player2.x ∧
    (checkBullet acc b).1.player2.y = acc.player2.y ∧
    (TankInv acc.player1 → TankInv (checkBullet acc b).1.player1) ∧
    (TankInv acc.player2 → TankInv (checkBullet acc b).1.player2) := by
  by_cases hb : b.alive = true
  · rw [checkBullet_alive acc b hb]
    dsimp only
    obtain ⟨a1, a2, a3, a4, a5⟩ :=
      bulletVsTank_inv acc.player1 b "Player 2" acc.game_over acc.winner
    obtain ⟨b1, b2, b3, b4, b5⟩ :=
      bulletVsTank_inv acc.player2
        (bulletVsTank acc.player1 b "Player 2" acc.game_over acc.winner).2.1 "Player 1"
        (bulletVsTank acc.player1 b "Player 2" acc.game_over acc.winner).2.2.1
        (bulletVsTank acc.player1 b "Player 2" acc.game_over acc.winner).2.2.2
    exact ⟨a1, b1, a2, a3, b2, b3, a4, b4⟩
  · rw [checkBullet_dead acc b (by simpa using hb)]
    exact ⟨le_refl _, le_refl _, rfl, rfl, rfl, rfl, fun h => h, fun h => h⟩

theorem checkBulletsLoop_cons (acc : CollisionAcc) (b : Bullet) (bs : List Bullet) :
    checkBulletsLoop acc (b :: bs) =
      ((checkBulletsLoop (checkBullet acc b).1 bs).1,
       (checkBullet acc b).2 :: (checkBulletsLoop (checkBullet acc b).1 bs).2) := rfl

theorem checkBulletsLoop_players (bs : List Bullet) (acc : CollisionAcc) :
    (checkBulletsLoop acc bs).1.player1.health ≤ acc.player1.health ∧
    (checkBulletsLoop acc bs).1.player2.health ≤ acc.player2.health ∧
    (TankInv acc.player1 → TankInv (checkBulletsLoop acc bs).1.player1) ∧
    (TankInv acc.player2 → TankInv (checkBulletsLoop acc bs).1.player2) := by
  induction bs generalizing acc with
  | nil => exact ⟨le_refl _, le_refl _, fun h => h, fun h => h⟩
  | cons b bs ih =>
    rw [checkBulletsLoop_cons]
    dsimp only
    obtain ⟨c1, c2, -, -, -, -, c7, c8⟩ := checkBullet_players acc b
    obtain ⟨i1, i2, i3, i4⟩ := ih (checkBullet acc b).1
    exact ⟨le_trans i1 c1, le_trans i2 c2, fun h => i3 (c7 h), fun h => i4 (c8 h)⟩

theorem move_fields (t : Tank) (dx dy mx my : Int) :
    (t.move dx dy mx my).health = t.health ∧ (t.move dx dy mx my).alive = t.alive := by
  unfold Tank.move
  dsimp only
  split_ifs <;> exact ⟨rfl, rfl⟩

theorem shoot_fields (t : Tank) (now : ℚ) :
    (t.shoot now).2.health = t.health ∧ (t.shoot now).2.alive = t.alive := by
  unfold Tank.shoot Tank.can_shoot
  dsimp only
  split_ifs <;> exact ⟨rfl, rfl⟩

theorem applyPlayerAction_fields (t : Tank) (bullets : List Bullet) (a : PlayerAction)
    (mx my : Int) (now : ℚ) :
    (applyPlayerAction t bullets a mx my now).1.health = t.health ∧
    (applyPlayerAction t bullets a mx my now).1.alive = t.alive := by
  cases a
  · exact move_fields t 0 (-1) mx my
  · exact move_fields t 0 1 mx my
  · exact move_fields t (-1) 0 mx my
  · exact move_fields t 1 0 mx my
  · rcases hs : t.shoot now with ⟨ob, t'⟩
    have := shoot_fields t now
    rw [hs] at this
    cases ob <;> simpa [applyPlayerAction, hs] using this

theorem handleInput_players (g : Game) (key : Int) (now : ℚ) :
    (g.handle_input key now).player1.health = g.player1.health ∧
    (g.handle_input key now).player1.alive = g.player1.alive ∧
    (g.handle_input key now).player2.health = g.player2.health ∧
    (g.handle_input key now).player2.alive = g.player2.alive := by
  rw [handleInput_spec g key now]
  rcases specKeyAction key with _ | a
  · exact ⟨rfl, rfl, rfl, rfl⟩
  · rcases a with a | a | _
    · obtain ⟨h1, h2⟩ := applyPlayerAction_fields g.player1 g.bullets a g.max_x g.max_y now
      exact ⟨h1, h2, rfl, rfl⟩
    · obtain ⟨h1, h2⟩ := applyPlayerAction_fields g.player2 g.bullets a g.max_x g.max_y now
      exact ⟨rfl, rfl, h1, h2⟩
    · exact ⟨rfl, rfl, rfl, rfl⟩

theorem check_collisions_players (g : Game) :
    g.check_collisions.player1.health ≤ g.player1.health ∧
    g.check_collisions.player2.health ≤ g.player2.health ∧
    (Game.Inv g → Game.Inv g.check_collisions) := by
  obtain ⟨h1, h2, h3, h4⟩ := checkBulletsLoop_players g.bullets g.collisionAcc
  exact ⟨h1, h2, fun hi => ⟨h3 hi.1, h4 hi.2⟩⟩

theorem update_players (g : Game) (now : ℚ) :
    (g.update now).player1.health ≤ g.player1.health ∧
    (g.update now).player2.health ≤ g.player2.health ∧
    (Game.Inv g → Game.Inv (g.update now)) := by
  exact check_collisions_players
    { g with bullets := g.bullets.map (fun b => b.update now g.max_x g.max_y) }

theorem step_players (g : Game) (key : Int) (now : ℚ) :
    (g.step key now).player1.health ≤ g.player1.health ∧
    (g.step key now).player2.health ≤ g.player2.health ∧
    (Game.Inv g → Game.Inv (g.step key now)) := by
  obtain ⟨h1, h2, h3, h4⟩ := handleInput_players g key now
  obtain ⟨u1, u2, u3⟩ := update_players (g.handle_input key now) now
  refine ⟨by rw [h1] at u1; exact u1, by rw [h3] at u2; exact u2, fun hi => ?_⟩
  refine u3 ⟨TankInv_of_eq _ _ h1 h2 hi.1, TankInv_of_eq _ _ h3 h4 hi.2⟩

theorem init_inv (mx my : Int) (ops : List (Int × Int)) :
    Game.Inv (Game.init mx my ops) := by
  refine ⟨⟨?_, ?_, ?_⟩, ⟨?_, ?_, ?_⟩⟩ <;> norm_num [Game.init, Tank.init]

theorem bulletVsTank_hit_kill (tk : Tank) (b : Bullet) (win : String) (go : Bool)
    (w : Option String) (ha : tk.alive = true) (hx : b.x = tk.x) (hy : b.y = tk.y)
    (hh : tk.health = 1) :
    bulletVsTank tk b win go w = (tk.hit, { b with alive := false }, true, some win) ∧
    tk.hit.alive = false ∧ tk.hit.health = 0 := by
  obtain ⟨e1, -, -, e4⟩ := hit_fields tk
  have hal : tk.hit.alive = false := by
    cases hcc : tk.hit.alive
    · rfl
    · have := (e4.mp hcc).2
      omega
  have hhe : tk.hit.health = 0 := by omega
  refine ⟨?_, hal, hhe⟩
  unfold bulletVsTank
  rw [if_pos ⟨ha, hx, hy⟩]
  dsimp only
  rw [if_neg (by rw [hal]; simp)]

theorem checkBulletsLoop_stable (bs : List Bullet) (acc : CollisionAcc)
    (h1 : acc.player1.alive = false)
    (hb2 : ∀ b ∈ bs, ¬(b.alive = true ∧ b.x = acc.player2.x ∧ b.y = acc.player2.y)) :
    (checkBulletsLoop acc bs).1.player1 = acc.player1 ∧
    (checkBulletsLoop acc bs).1.player2 = acc.player2 ∧
    (checkBulletsLoop acc bs).1.game_over = acc.game_over ∧
    (checkBulletsLoop acc bs).1.winner = acc.winner := by
  induction bs generalizing acc with
  | nil => exact ⟨rfl, rfl, rfl, rfl⟩
  | cons b bs ih =>
    rw [checkBulletsLoop_cons]
    dsimp only
    by_cases hba : b.alive = true
    · rw [checkBullet_alive acc b hba]
      dsimp only
      have e1 : bulletVsTank acc.player1 b "Player 2" acc.game_over acc.winner =
          (acc.player1, b, acc.game_over, acc.winner) :=
        bulletVsTank_not_hit _ _ _ _ _ (fun hc => by rw [h1] at hc; cases hc.1)
      rw [e1]
      dsimp only
      have e2 : bulletVsTank acc.player2 b "Player 1" acc.game_over acc.winner =
          (acc.player2, b, acc.game_over, acc.winner) :=
        bulletVsTank_not_hit _ _ _ _ _
          (fun hc => hb2 b (List.mem_cons_self _ _) ⟨hba, hc.2.1, hc.2.2⟩)
      rw [e2]
      dsimp only
      exact ih _ h1 (fun b' hb' => hb2 b' (List.mem_cons_of_mem _ hb'))
    · rw [checkBullet_dead acc b (by simpa using hba)]
      dsimp only
      exact ih acc h1 (fun b' hb' => hb2 b' (List.mem_cons_of_mem _ hb'))

theorem checkBulletsLoop_kill_p1 (bs : List Bullet) (acc : CollisionAcc)
    (h1 : acc.player1.alive = true) (hh : acc.player1.health = 1)
    (hbs : ∃ b ∈ bs, b.alive = true ∧ b.x = acc.player1.x ∧ b.y = acc.player1.y)
    (hb2 : ∀ b ∈ bs, ¬(b.alive = true ∧ b.x = acc.player2.x ∧ b.y = acc.player2.y)) :
    (checkBulletsLoop acc bs).1.player1.health = 0 ∧
    (checkBulletsLoop acc bs).1.player1.alive = false ∧
    (checkBulletsLoop acc bs).1.game_over = true ∧
    (checkBulletsLoop acc bs).1.winner = some "Player 2" := by
  induction bs generalizing acc with
  | nil =>
    rcases hbs with ⟨b, hb, -⟩
    cases hb
  | cons b bs ih =>
    rw [checkBulletsLoop_cons]
    dsimp only
    by_cases hba : b.alive = true
    · by_cases hpos : b.x = acc.player1.x ∧ b.y = acc.player1.y
      · rw [checkBullet_alive acc b hba]
        dsimp only
        obtain ⟨e, ea, eh⟩ := bulletVsTank_hit_kill acc.player1 b "Player 2"
          acc.game_over acc.winner h1 hpos.1 hpos.2 hh
        rw [e]
        dsimp only
        have h2 : bulletVsTank acc.player2 { b with alive := false } "Player 1" true
            (some "Player 2") =
            (acc.player2, { b with alive := false }, true, some "Player 2") :=
          bulletVsTank_not_hit _ _ _ _ _
            (fun hc => hb2 b (List.mem_cons_self _ _) ⟨hba, hc.2.1, hc.2.2⟩)
        rw [h2]
        dsimp only
        obtain ⟨s1, s2, s3, s4⟩ := checkBulletsLoop_stable bs
          { player1 := acc.player1.hit, player2 := acc.player2,
            obstacles := (bulletVsObstacles acc.obstacles { b with alive := false }).1,
            game_over := true, winner := some "Player 2" }
          ea (fun b' hb' => hb2 b' (List.mem_cons_of_mem _ hb'))
        rw [s1, s3, s4]
        exact ⟨eh, ea, rfl, rfl⟩
      · rw [checkBullet_alive acc b hba]
        dsimp only
        have e1 : bulletVsTank acc.player1 b "Player 2" acc.game_over acc.winner =
            (acc.player1, b, acc.game_over, acc.winner) :=
          bulletVsTank_not_hit _ _ _ _ _ (fun hc => hpos ⟨hc.2.1, hc.2.2⟩)
        rw [e1]
        dsimp only
        have e2 : bulletVsTank acc.player2 b "Player 1" acc.game_over acc.winner =
            (acc.player2, b, acc.game_over, acc.winner) :=
          bulletVsTank_not_hit _ _ _ _ _
            (fun hc => hb2 b (List.mem_cons_self _ _) ⟨hba, hc.2.1, hc.2.2⟩)
        rw [e2]
        dsimp only
        refine ih _ h1 hh ?_ (fun b' hb' => hb2 b' (List.mem_cons_of_mem _ hb'))
        rcases hbs with ⟨b0, hb0, hprops⟩
        rcases List.mem_cons.mp hb0 with he | hmem
        · rw [he] at hprops
          exact absurd ⟨hprops.2.1, hprops.2.2⟩ hpos
        · exact ⟨b0, hmem, hprops⟩
    · rw [checkBullet_dead acc b (by simpa using hba)]
      dsimp only
      refine ih acc h1 hh ?_ (fun b' hb' => hb2 b' (List.mem_cons_of_mem _ hb'))
      rcases hbs with ⟨b0, hb0, hprops⟩
      rcases List.mem_cons.mp hb0 with he | hmem
      · rw [he] at hprops
        exact absurd hprops.1 (by simpa using hba)
      · exact ⟨b0, hmem, hprops⟩

theorem obstacleHit_fields (b : Bullet) (o : Obstacle) :
    (obstacleHit b o).x = o.x ∧ (obstacleHit b o).y = o.y ∧
    (obstacleHit b o).destructible = o.destructible ∧
    ((obstacleHit b o).alive = true → o.alive = true) := by
  unfold obstacleHit
  split_ifs with h1 h2
  · exact ⟨rfl, rfl, rfl, fun hc => by cases hc⟩
  · exact ⟨rfl, rfl, rfl, fun _ => h1.1⟩
  · exact ⟨rfl, rfl, rfl, fun h => h⟩

theorem obstacleHit_kill (b : Bullet) (o : Obstacle)
    (hd : o.destructible = true) (hx : b.x = o.x) (hy : b.y = o.y) :
    (obstacleHit b o).alive = false := by
  unfold obstacleHit
  by_cases ha : o.alive = true
  · rw [if_pos ⟨ha, hx, hy⟩, if_pos hd]
  · rw [if_neg (fun hc => ha hc.1)]
    cases hal : o.alive
    · rfl
    · exact absurd hal ha

theorem obstacleHit_miss (b : Bullet) (o : Obstacle) (h : ¬(b.x = o.x ∧ b.y = o.y)) :
    obstacleHit b o = o := by
  unfold obstacleHit
  rw [if_neg (fun hc => h ⟨hc.2.1, hc.2.2⟩)]

theorem checkBullet_bullet_pos (acc : CollisionAcc) (b : Bullet) (hb : b.alive = true) :
    ((checkBullet acc b).1.obstacles = (bulletVsObstacles acc.obstacles
        (bulletVsTank acc.player2
          (bulletVsTank acc.player1 b "Player 2" acc.game_over acc.winner).2.1 "Player 1"
          (bulletVsTank acc.player1 b "Player 2" acc.game_over acc.winner).2.2.1
          (bulletVsTank acc.player1 b "Player 2" acc.game_over acc.winner).2.2.2).2.1).1) ∧
    ((checkBullet acc b).2 = (bulletVsObstacles acc.obstacles
        (bulletVsTank acc.player2
          (bulletVsTank acc.player1 b "Player 2" acc.game_over acc.winner).2.1 "Player 1"
          (bulletVsTank acc.player1 b "Player 2" acc.game_over acc.winner).2.2.1
          (bulletVsTank acc.player1 b "Player 2" acc.game_over acc.winner).2.2.2).2.1).2) ∧
    ((bulletVsTank acc.player2
        (bulletVsTank acc.player1 b "Player 2" acc.game_over acc.winner).2.1 "Player 1"
        (bulletVsTank acc.player1 b "Player 2" acc.game_over acc.winner).2.2.1
        (bulletVsTank acc.player1 b "Player 2" acc.game_over acc.winner).2.2.2).2.1.x = b.x) ∧
    ((bulletVsTank acc.player2
        (bulletVsTank acc.player1 b "Player 2" acc.game_over acc.winner).2.1 "Player 1"
        (bulletVsTank acc.player1 b "Player 2" acc.game_over acc.winner).2.2.1
        (bulletVsTank acc.player1 b "Player 2" acc.game_over acc.winner).2.2.2).2.1.y = b.y) := by
  refine ⟨by rw [checkBullet_alive acc b hb], by rw [checkBullet_alive acc b hb], ?_, ?_⟩
  · exact (bulletVsTank_bullet_pos _ _ _ _ _).1.trans (bulletVsTank_bullet_pos _ _ _ _ _).1
  · exact (bulletVsTank_bullet_pos _ _ _ _ _).2.trans (bulletVsTank_bullet_pos _ _ _ _ _).2

theorem checkBullet_obstacles_map (acc : CollisionAcc) (b : Bullet) (hb : b.alive = true) :
    (checkBullet acc b).1.obstacles = acc.obstacles.map (obstacleHit b) := by
  obtain ⟨e0, -, ex, ey⟩ := checkBullet_bullet_pos acc b hb
  rw [e0]
  unfold bulletVsObstacles
  dsimp only
  congr 1
  funext o
  unfold obstacleHit
  rw [ex, ey]

theorem checkBullet_obstacles_length (acc : CollisionAcc) (b : Bullet) :
    (checkBullet acc b).1.obstacles.length = acc.obstacles.length := by
  by_cases hb : b.alive = true
  · rw [checkBullet_obstacles_map acc b hb]
    exact List.length_map _ _
  · rw [checkBullet_dead acc b (by simpa using hb)]

theorem checkBulletsLoop_obstacles_length (bs : List Bullet) (acc : CollisionAcc) :
    (checkBulletsLoop acc bs).1.obstacles.length = acc.obstacles.length := by
  induction bs generalizing acc with
  | nil => rfl
  | cons b bs ih =>
    rw [checkBulletsLoop_cons]
    dsimp only
    rw [ih, checkBullet_obstacles_length]

theorem checkBulletsLoop_obstacle_track (bs : List Bullet) (acc : CollisionAcc)
    (i : Nat) (o : Obstacle) (ho : acc.obstacles.get? i = some o) :
    ∃ o', (checkBulletsLoop acc bs).1.obstacles.get? i = some o' ∧
      o'.x = o.x ∧ o'.y = o.y ∧ o'.destructible = o.destructible ∧
      (o'.alive = true → o.alive = true) ∧
      (o.destructible = true →
        (∃ b ∈ bs, b.alive = true ∧ b.x = o.x ∧ b.y = o.y) → o'.alive = false) ∧
      ((∀ b ∈ bs, ¬(b.alive = true ∧ b.x = o.x ∧ b.y = o.y)) → o' = o) := by
  induction bs generalizing acc o with
  | nil =>
    refine ⟨o, ho, rfl, rfl, rfl, fun h => h, fun _ hex => ?_, fun _ => rfl⟩
    rcases hex with ⟨b, hb, -⟩
    cases hb
  | cons b bs ih =>
    rw [checkBulletsLoop_cons]
    dsimp only
    by_cases hba : b.alive = true
    · have hmap := checkBullet_obstacles_map acc b hba
      have ho1 : (checkBullet acc b).1.obstacles.get? i = some (obstacleHit b o) := by
        rw [hmap, List.get?_map, ho]
        rfl
      obtain ⟨f1, f2, f3, f4⟩ := obstacleHit_fields b o
      obtain ⟨o', e1, e2, e3, e4, e5, e6, e7⟩ := ih (checkBullet acc b).1 (obstacleHit b o) ho1
      refine ⟨o', e1, e2.trans f1, e3.trans f2, e4.trans f3, fun h => f4 (e5 h), ?_, ?_⟩
      · intro hd hex
        rcases hex with ⟨b0, hb0, hprops⟩
        rcases List.mem_cons.mp hb0 with he | hmem
        · -- the head bullet strikes the obstacle now
          have hkill : (obstacleHit b o).alive = false := by
            rw [he] at hprops
            exact obstacleHit_kill b o hd hprops.2.1 hprops.2.2
          cases hal : o'.alive
          · rfl
          · rw [e5 hal] at hkill
            cases hkill
        · exact e6 (by rw [f3]; exact hd) ⟨b0, hmem, hprops.1, hprops.2.1.trans f1.symm, hprops.2.2.trans f2.symm⟩
      · intro hall
        have hmiss : obstacleHit b o = o := by
          apply obstacleHit_miss
          intro hc
          exact hall b (List.mem_cons_self _ _) ⟨hba, hc.1, hc.2⟩
        rw [hmiss] at e7
        exact e7 (fun b' hb' => hall b' (List.mem_cons_of_mem _ hb'))
    · rw [checkBullet_dead acc b (by simpa using hba)]
      dsimp only
      obtain ⟨o', e1, e2, e3, e4, e5, e6, e7⟩ := ih acc o ho
      refine ⟨o', e1, e2, e3, e4, e5, ?_, ?_⟩
      · intro hd hex
        rcases hex with ⟨b0, hb0, hprops⟩
        rcases List.mem_cons.mp hb0 with he | hmem
        · rw [he] at hprops
          exact absurd hprops.1 (by simpa using hba)
        · exact e6 hd ⟨b0, hmem, hprops⟩
      · intro hall
        exact e7 (fun b' hb' => hall b' (List.mem_cons_of_mem _ hb'))

theorem checkBullet_bullet_killed (acc : CollisionAcc) (b : Bullet) (hb : b.alive = true)
    (ho : ∃ o ∈ acc.obstacles, o.alive = true ∧ o.x = b.x ∧ o.y = b.y) :
    (checkBullet acc b).2.alive = false := by
  obtain ⟨-, e0, ex, ey⟩ := checkBullet_bullet_pos acc b hb
  rw [e0]
  unfold bulletVsObstacles
  dsimp only
  rcases ho with ⟨o, hom, hoa, hox, hoy⟩
  rw [if_pos (List.any_eq_true.mpr ⟨o, hom, by
    rw [ex, ey]
    simp only [Bool.and_eq_true, decide_eq_true_eq]
    exact ⟨⟨hoa, hox.symm⟩, hoy.symm⟩⟩)]

theorem checkBulletsLoop_processed_cons (acc : CollisionAcc) (b : Bullet)
    (bs : List Bullet) (n : Nat) :
    (checkBulletsLoop acc (b :: bs)).2.get? (n + 1) =
      (checkBulletsLoop (checkBullet acc b).1 bs).2.get? n := by
  rw [checkBulletsLoop_cons]
  rfl

theorem checkBulletsLoop_kill_bullet (l1 : List Bullet) (b : Bullet) (l2 : List Bullet)
    (acc : CollisionAcc) (p q : Int) (hb : b.alive = true) (hbx : b.x = p) (hby : b.y = q)
    (ho : ∃ o ∈ acc.obstacles, o.alive = true ∧ o.x = p ∧ o.y = q)
    (hfirst : ∀ b' ∈ l1, ¬(b'.alive = true ∧ b'.x = p ∧ b'.y = q)) :
    ∃ b', (checkBulletsLoop acc (l1 ++ b :: l2)).2.get? l1.length = some b' ∧
      b'.alive = false := by
  induction l1 generalizing acc with
  | nil =>
    rw [List.nil_append, checkBulletsLoop_cons]
    refine ⟨(checkBullet acc b).2, rfl, ?_⟩
    apply checkBullet_bullet_killed acc b hb
    rcases ho with ⟨o, hom, hoa, hox, hoy⟩
    exact ⟨o, hom, hoa, by rw [hbx, hox], by rw [hby, hoy]⟩
  | cons a l1 ih =>
    rw [List.cons_append, List.length_cons, checkBulletsLoop_processed_cons]
    by_cases haa : a.alive = true
    · refine ih (checkBullet acc a).1 ?_ (fun b' hb' => hfirst b' (List.mem_cons_of_mem _ hb'))
      rcases ho with ⟨o, hom, hoa, hox, hoy⟩
      have hmiss : obstacleHit a o = o := by
        apply obstacleHit_miss
        intro hc
        exact hfirst a (List.mem_cons_self _ _) ⟨haa, hc.1.trans hox, hc.2.trans hoy⟩
      refine ⟨o, ?_, hoa, hox, hoy⟩
      rw [checkBullet_obstacles_map acc a haa]
      exact hmiss ▸ List.mem_map_of_mem (obstacleHit a) hom
    · rw [checkBullet_dead acc a (by simpa using haa)]
      exact ih acc ho (fun b' hb' => hfirst b' (List.mem_cons_of_mem _ hb'))

theorem checkBulletsLoop_stable2 (bs : List Bullet) (acc : CollisionAcc)
    (h2 : acc.player2.alive = false)
    (hb1 : ∀ b ∈ bs, ¬(b.alive = true ∧ b.x = acc.player1.x ∧ b.y = acc.player1.y)) :
    (checkBulletsLoop acc bs).1.player1 = acc.player1 ∧
    (checkBulletsLoop acc bs).1.player2 = acc.player2 ∧
    (checkBulletsLoop acc bs).1.game_over = acc.game_over ∧
    (checkBulletsLoop acc bs).1.winner = acc.winner := by
  induction bs generalizing acc with
  | nil => exact ⟨rfl, rfl, rfl, rfl⟩
  | cons b bs ih =>
    rw [checkBulletsLoop_cons]
    dsimp only
    by_cases hba : b.alive = true
    · rw [checkBullet_alive acc b hba]
      dsimp only
      have e1 : bulletVsTank acc.player1 b "Player 2" acc.game_over acc.winner =
          (acc.player1, b, acc.game_over, acc.winner) :=
        bulletVsTank_not_hit _ _ _ _ _
          (fun hc => hb1 b (List.mem_cons_self _ _) ⟨hba, hc.2.1, hc.2.2⟩)
      rw [e1]
      dsimp only
      have e2 : bulletVsTank acc.player2 b "Player 1" acc.game_over acc.winner =
          (acc.player2, b, acc.game_over, acc.winner) :=
        bulletVsTank_not_hit _ _ _ _ _ (fun hc => by rw [h2] at hc; cases hc.1)
      rw [e2]
      dsimp only
      exact ih _ h2 (fun b' hb' => hb1 b' (List.mem_cons_of_mem _ hb'))
    · rw [checkBullet_dead acc b (by simpa using hba)]
      dsimp only
      exact ih acc h2 (fun b' hb' => hb1 b' (List.mem_cons_of_mem _ hb'))

theorem checkBulletsLoop_kill_p2 (bs : List Bullet) (acc : CollisionAcc)
    (h2 : acc.player2.alive = true) (hh : acc.player2.health = 1)
    (hbs : ∃ b ∈ bs, b.alive = true ∧ b.x = acc.player2.x ∧ b.y = acc.player2.y)
    (hb1 : ∀ b ∈ bs, ¬(b.alive = true ∧ b.x = acc.player1.x ∧ b.y = acc.player1.y)) :
    (checkBulletsLoop acc bs).1.player2.health = 0 ∧
    (checkBulletsLoop acc bs).1.player2.alive = false ∧
    (checkBulletsLoop acc bs).1.game_over = true ∧
    (checkBulletsLoop acc bs).1.winner = some "Player 1" := by
  induction bs generalizing acc with
  | nil =>
    rcases hbs with ⟨b, hb, -⟩
    cases hb
  | cons b bs ih =>
    rw [checkBulletsLoop_cons]
    dsimp only
    by_cases hba : b.alive = true
    · by_cases hpos : b.x = acc.player2.x ∧ b.y = acc.player2.y
      · rw [checkBullet_alive acc b hba]
        dsimp only
        have e1 : bulletVsTank acc.player1 b "Player 2" acc.game_over acc.winner =
            (acc.player1, b, acc.game_over, acc.winner) :=
          bulletVsTank_not_hit _ _ _ _ _
            (fun hc => hb1 b (List.mem_cons_self _ _) ⟨hba, hc.2.1, hc.2.2⟩)
        rw [e1]
        dsimp only
        obtain ⟨e, ea, eh⟩ := bulletVsTank_hit_kill acc.player2 b "Player 1"
          acc.game_over acc.winner h2 hpos.1 hpos.2 hh
        rw [e]
        dsimp only
        obtain ⟨s1, s2, s3, s4⟩ := checkBulletsLoop_stable2 bs
          { player1 := acc.player1, player2 := acc.player2.hit,
            obstacles := (bulletVsObstacles acc.obstacles { b with alive := false }).1,
            game_over := true, winner := some "Player 1" }
          ea (fun b' hb' => hb1 b' (List.mem_cons_of_mem _ hb'))
        rw [s2, s3, s4]
        exact ⟨eh, ea, rfl, rfl⟩
      · rw [checkBullet_alive acc b hba]
        dsimp only
        have e1 : bulletVsTank acc.player1 b "Player 2" acc.game_over acc.winner =
            (acc.player1, b, acc.game_over, acc.winner) :=
          bulletVsTank_not_hit _ _ _ _ _
            (fun hc => hb1 b (List.mem_cons_self _ _) ⟨hba, hc.2.1, hc.2.2⟩)
        rw [e1]
        dsimp only
        have e2 : bulletVsTank acc.player2 b "Player 1" acc.game_over acc.winner =
            (acc.player2, b, acc.game_over, acc.winner) :=
          bulletVsTank_not_hit _ _ _ _ _ (fun hc => hpos ⟨hc.2.1, hc.2.2⟩)
        rw [e2]
        dsimp only
        refine ih _ h2 hh ?_ (fun b' hb' => hb1 b' (List.mem_cons_of_mem _ hb'))
        rcases hbs with ⟨b0, hb0, hprops⟩
        rcases List.mem_cons.mp hb0 with he | hmem
        · rw [he] at hprops
          exact absurd ⟨hprops.2.1, hprops.2.2⟩ hpos
        · exact ⟨b0, hmem, hprops⟩
    · rw [checkBullet_dead acc b (by simpa using hba)]
      dsimp only
      refine ih acc h2 hh ?_ (fun b' hb' => hb1 b' (List.mem_cons_of_mem _ hb'))
      rcases hbs with ⟨b0, hb0, hprops⟩
      rcases List.mem_cons.mp hb0 with he | hmem
      · rw [he] at hprops
        exact absurd hprops.1 (by simpa using hba)
      · exact ⟨b0, hmem, hprops⟩

/-- C1, counterexample: the claim "once a projectile matches a target it is
skipped for all subsequent coordinate-equality tests in that same tick, so one
projectile never damages two tanks, or a tank and an obstacle, in one tick" is
false.  In `overlapGame` a single live bullet shares the cell (5, 5) with both
tanks and an obstacle; one run of `check_collisions` damages both tanks (health
3 to 2 each) and also destroys the obstacle: the source only re-tests
`bullet.alive` at the top of the per-bullet loop, not between the Tank 1,
Tank 2 and obstacle tests of the same bullet. -/
theorem C1_counterexample :
    overlapGame.bullets.length = 1 ∧
    overlapGame.check_collisions.player1.health = 2 ∧
    overlapGame.check_collisions.player2.health = 2 ∧
    overlapGame.check_collisions.obstacles = [] := by decide

/-- C1, amended: a projectile is marked dead on its first match, and an
already-dead projectile is skipped by the liveness test at the start of its own
processing; but within the same tick the remaining coordinate tests for that
projectile still run, so a projectile damages several targets exactly when
they share its cell.  Hence, whenever the two tanks stand on distinct cells
and no obstacle shares a cell with either tank, one projectile changes at
most one of the three target groups (Tank 1, Tank 2, the obstacles) during
its collision processing. -/
theorem C1_amended (acc : CollisionAcc) (b : Bullet)
    (hp : ¬(acc.player2.x = acc.player1.x ∧ acc.player2.y = acc.player1.y))
    (ho1 : ∀ o ∈ acc.obstacles, ¬(o.x = acc.player1.x ∧ o.y = acc.player1.y))
    (ho2 : ∀ o ∈ acc.obstacles, ¬(o.x = acc.player2.x ∧ o.y = acc.player2.y)) :
    ((checkBullet acc b).1.player1 = acc.player1 ∧
      (checkBullet acc b).1.player2 = acc.player2) ∨
    ((checkBullet acc b).1.player1 = acc.player1 ∧
      (checkBullet acc b).1.obstacles = acc.obstacles) ∨
    ((checkBullet acc b).1.player2 = acc.player2 ∧
      (checkBullet acc b).1.obstacles = acc.obstacles) := by
  by_cases hb : b.alive = true
  · rw [checkBullet_alive acc b hb]
    dsimp only
    by_cases hA : b.x = acc.player1.x ∧ b.y = acc.player1.y
    · -- the bullet sits on player 1's cell: player 2 and the obstacles are untouched
      right; right
      have hpos := bulletVsTank_bullet_pos acc.player1 b "Player 2" acc.game_over acc.winner
      have h2 : bulletVsTank acc.player2
          (bulletVsTank acc.player1 b "Player 2" acc.game_over acc.winner).2.1 "Player 1"
          (bulletVsTank acc.player1 b "Player 2" acc.game_over acc.winner).2.2.1
          (bulletVsTank acc.player1 b "Player 2" acc.game_over acc.winner).2.2.2 =
          (acc.player2,
            (bulletVsTank acc.player1 b "Player 2" acc.game_over acc.winner).2.1,
            (bulletVsTank acc.player1 b "Player 2" acc.game_over acc.winner).2.2.1,
            (bulletVsTank acc.player1 b "Player 2" acc.game_over acc.winner).2.2.2) := by
        apply bulletVsTank_not_hit
        rintro ⟨-, hx, hy⟩
        rw [hpos.1, hA.1] at hx
        rw [hpos.2, hA.2] at hy
        exact hp ⟨hx.symm, hy.symm⟩
      rw [h2]
      dsimp only
      have h3 : bulletVsObstacles acc.obstacles
          (bulletVsTank acc.player1 b "Player 2" acc.game_over acc.winner).2.1 =
          (acc.obstacles,
            (bulletVsTank acc.player1 b "Player 2" acc.game_over acc.winner).2.1) := by
        apply bulletVsObstacles_not_hit
        rintro o ho ⟨-, hx, hy⟩
        rw [hpos.1, hA.1] at hx
        rw [hpos.2, hA.2] at hy
        exact ho1 o ho ⟨hx.symm, hy.symm⟩
      rw [h3]
      exact ⟨rfl, rfl⟩
    · -- the bullet misses player 1
      have h1 : bulletVsTank acc.player1 b "Player 2" acc.game_over acc.winner =
          (acc.player1, b, acc.game_over, acc.winner) :=
        bulletVsTank_not_hit _ _ _ _ _ (fun hc => hA ⟨hc.2.1, hc.2.2⟩)
      rw [h1]
      dsimp only
      by_cases hB : b.x = acc.player2.x ∧ b.y = acc.player2.y
      · -- the bullet sits on player 2's cell: player 1 and the obstacles are untouched
        right; left
        have hpos := bulletVsTank_bullet_pos acc.player2 b "Player 1" acc.game_over acc.winner
        have h3 : bulletVsObstacles acc.obstacles
            (bulletVsTank acc.player2 b "Player 1" acc.game_over acc.winner).2.1 =
            (acc.obstacles,
              (bulletVsTank acc.player2 b "Player 1" acc.game_over acc.winner).2.1) := by
          apply bulletVsObstacles_not_hit
          rintro o ho ⟨-, hx, hy⟩
          rw [hpos.1, hB.1] at hx
          rw [hpos.2, hB.2] at hy
          exact ho2 o ho ⟨hx.symm, hy.symm⟩
        rw [h3]
        exact ⟨rfl, rfl⟩
      · -- the bullet misses both tanks: only obstacles can be struck
        left
        have h2 : bulletVsTank acc.player2 b "Player 1" acc.game_over acc.winner =
            (acc.player2, b, acc.game_over, acc.winner) :=
          bulletVsTank_not_hit _ _ _ _ _ (fun hc => hB ⟨hc.2.1, hc.2.2⟩)
        rw [h2]
        exact ⟨rfl, rfl⟩
  · rw [checkBullet_dead acc b (by simpa using hb)]
    exact Or.inl ⟨rfl, rfl⟩

/-- C2: in every reachable session state both tanks satisfy the invariant
`0 ≤ health ≤ 3` with `alive = true` exactly when `0 < health`, and a tick
(`Game.step` = `handle_input` then `update`) never increases either tank's
health, so health is monotonically non-increasing over the session.  Hits are
only applied to alive tanks inside `check_collisions`, which is what keeps
health at least 0. -/
theorem C2_health (g : Game) (key : Int) (now : ℚ) (hg : Reachable g) :
    Game.Inv g ∧
    (g.step key now).player1.health ≤ g.player1.health ∧
    (g.step key now).player2.health ≤ g.player2.health := by
  refine ⟨?_, (step_players g key now).1, (step_players g key now).2.1⟩
  induction hg with
  | init mx my ops => exact init_inv mx my ops
  | step g' key' now' hg' ih => exact (step_players g' key' now').2.2 ih

/-- C3: for every unit cardinal step `(dx, dy)`, `Tank.move` rejects the move
with no state change at all when the resulting position would touch or cross
the playfield border (that is, would violate `0 < x < max_x - 1` and
`0 < y < max_y - 1`); on an accepted move the new position strictly satisfies
those bounds, the heading is updated to match the step direction and the
glyph becomes the matching marker. -/
theorem C3_move (t : Tank) (dx dy max_x max_y : Int)
    (hcard : (dx = 0 ∧ (dy = 1 ∨ dy = -1)) ∨ (dy = 0 ∧ (dx = 1 ∨ dx = -1))) :
    (¬(0 < t.x + dx ∧ t.x + dx < max_x - 1 ∧ 0 < t.y + dy ∧ t.y + dy < max_y - 1) →
      t.move dx dy max_x max_y = t) ∧
    ((0 < t.x + dx ∧ t.x + dx < max_x - 1 ∧ 0 < t.y + dy ∧ t.y + dy < max_y - 1) →
      (t.move dx dy max_x max_y).x = t.x + dx ∧
      (t.move dx dy max_x max_y).y = t.y + dy ∧
      0 < (t.move dx dy max_x max_y).x ∧ (t.move dx dy max_x max_y).x < max_x - 1 ∧
      0 < (t.move dx dy max_x max_y).y ∧ (t.move dx dy max_x max_y).y < max_y - 1 ∧
      (dx = 1 → (t.move dx dy max_x max_y).direction = .right ∧
        (t.move dx dy max_x max_y).symbol = '>') ∧
      (dx = -1 → (t.move dx dy max_x max_y).direction = .left ∧
        (t.move dx dy max_x max_y).symbol = '<') ∧
      (dy = 1 → (t.move dx dy max_x max_y).direction = .down ∧
        (t.move dx dy max_x max_y).symbol = 'v') ∧
      (dy = -1 → (t.move dx dy max_x max_y).direction = .up ∧
        (t.move dx dy max_x max_y).symbol = '^')) := by
  constructor
  · intro h
    simp only [Tank.move]
    rw [if_neg h]
  · intro h
    rcases hcard with ⟨hdx, hdy | hdy⟩ | ⟨hdy, hdx | hdx⟩ <;>
      subst hdx <;> subst hdy <;>
      simp only [Tank.move, if_pos h] <;> norm_num <;> omega

/-- C4: for a tank with the standard 0.5 s cooldown, `can_shoot now` returns
true and records `now` as the last-fire time iff `now - last_shot_time > 1/2`,
and otherwise returns false with no state change; consequently two consecutive
successful fire checks at times `t1` and `t2` satisfy `t2 - t1 > 1/2`. -/
theorem C4_cooldown (t : Tank) (t1 t2 : ℚ) (hcool : t.shot_cooldown = 1/2) :
    ((t.can_shoot t1).1 = true ↔ t1 - t.last_shot_time > 1/2) ∧
    ((t.can_shoot t1).1 = true →
      (t.can_shoot t1).2 = { t with last_shot_time := t1 }) ∧
    ((t.can_shoot t1).1 = false → (t.can_shoot t1).2 = t) ∧
    ((t.can_shoot t1).1 = true → (((t.can_shoot t1).2).can_shoot t2).1 = true →
      t2 - t1 > 1/2) := by
  by_cases h1 : t1 - t.last_shot_time > 1/2
  · have e1 : t.can_shoot t1 = (true, { t with last_shot_time := t1 }) := by
      unfold Tank.can_shoot
      rw [hcool, if_pos h1]
    refine ⟨by rw [e1]; simpa using h1, fun _ => by rw [e1], ?_, fun _ hs2 => ?_⟩
    · intro hf
      rw [e1] at hf
      cases hf
    · rw [e1] at hs2
      unfold Tank.can_shoot at hs2
      simp only [hcool] at hs2
      by_cases h2 : t2 - t1 > (1:ℚ)/2
      · exact h2
      · rw [if_neg h2] at hs2
        cases hs2
  · have e1 : t.can_shoot t1 = (false, t) := by
      unfold Tank.can_shoot
      rw [hcool, if_neg h1]
    refine ⟨by rw [e1]; simpa using h1, ?_, fun _ => by rw [e1], ?_⟩
    · intro hf
      rw [e1] at hf
      cases hf
    · intro hf
      rw [e1] at hf
      cases hf

/-- C5: when collision resolution finds a live projectile on the cell of an
alive tank with health 1 (and no live projectile threatens the other tank,
so the winner is not overwritten by a simultaneous kill), the tank ends with
health 0 and alive = false, the session transitions to game over, and the
winner is the other tank's identifier.  Both tank roles are covered. -/
theorem C5_tank_kill (g : Game) :
    ((g.player1.alive = true ∧ g.player1.health = 1 ∧
      (∃ b ∈ g.bullets, b.alive = true ∧ b.x = g.player1.x ∧ b.y = g.player1.y) ∧
      (∀ b ∈ g.bullets, ¬(b.alive = true ∧ b.x = g.player2.x ∧ b.y = g.player2.y))) →
      g.check_collisions.player1.health = 0 ∧
      g.check_collisions.player1.alive = false ∧
      g.check_collisions.game_over = true ∧
      g.check_collisions.winner = some "Player 2") ∧
    ((g.player2.alive = true ∧ g.player2.health = 1 ∧
      (∃ b ∈ g.bullets, b.alive = true ∧ b.x = g.player2.x ∧ b.y = g.player2.y) ∧
      (∀ b ∈ g.bullets, ¬(b.alive = true ∧ b.x = g.player1.x ∧ b.y = g.player1.y))) →
      g.check_collisions.player2.health = 0 ∧
      g.check_collisions.player2.alive = false ∧
      g.check_collisions.game_over = true ∧
      g.check_collisions.winner = some "Player 1") := by
  constructor
  · rintro ⟨h1, hh, hbs, hb2⟩
    exact checkBulletsLoop_kill_p1 g.bullets g.collisionAcc h1 hh hbs hb2
  · rintro ⟨h2, hh, hbs, hb1⟩
    exact checkBulletsLoop_kill_p2 g.bullets g.collisionAcc h2 hh hbs hb1

/-- C6: `Bullet.update now bounds` (for the standard 0.1 s interval) moves
the projectile exactly one cell along its fixed heading and records `now`
iff `now - last_move_time > 1/10`, leaves it completely unchanged
otherwise, never changes the heading, and after a move it is alive iff it
was alive and the post-move position does not touch or cross a boundary
(`x ≤ 0 ∨ x ≥ max_x - 1 ∨ y ≤ 0 ∨ y ≥ max_y - 1`). -/
theorem C6_bullet (b : Bullet) (now : ℚ) (max_x max_y : Int) (hspeed : b.speed = 1/10) :
    (now - b.last_move_time > 1/10 →
      (b.update now max_x max_y).x = b.x + (b.direction.value).1 ∧
      (b.update now max_x max_y).y = b.y + (b.direction.value).2 ∧
      (b.update now max_x max_y).last_move_time = now ∧
      (b.update now max_x max_y).direction = b.direction ∧
      ((b.update now max_x max_y).alive = true ↔
        (b.alive = true ∧
          ¬(b.x + (b.direction.value).1 ≤ 0 ∨ b.x + (b.direction.value).1 ≥ max_x - 1 ∨
            b.y + (b.direction.value).2 ≤ 0 ∨ b.y + (b.direction.value).2 ≥ max_y - 1)))) ∧
    (¬(now - b.last_move_time > 1/10) → b.update now max_x max_y = b) := by
  constructor
  · intro h
    unfold Bullet.update
    rw [hspeed, if_pos h]
    by_cases hout : b.x + (b.direction.value).1 ≤ 0 ∨ b.x + (b.direction.value).1 ≥ max_x - 1 ∨
        b.y + (b.direction.value).2 ≤ 0 ∨ b.y + (b.direction.value).2 ≥ max_y - 1
    · rw [if_pos hout]
      refine ⟨rfl, rfl, rfl, rfl, ?_⟩
      simp only [Bool.false_eq_true, false_iff, not_and, not_not]
      intro _
      exact hout
    · rw [if_neg hout]
      refine ⟨rfl, rfl, rfl, rfl, ?_⟩
      exact ⟨fun ha => ⟨ha, hout⟩, fun hc => hc.1⟩
  · intro h
    unfold Bullet.update
    rw [hspeed, if_neg h]

/-- C7: after `check_collisions` compaction the projectile collection holds
no dead projectile and the obstacle collection holds no destroyed obstacle;
and when an alive obstacle is struck by the first live projectile on its
cell (obstacles being destructible as created), no obstacle remains on that
cell and the striking projectile's slot in the processed bullet list is dead,
hence dropped by the same compaction. -/
theorem C7_compaction (g : Game) (o : Obstacle) (l1 l2 : List Bullet) (b : Bullet)
    (hsplit : g.bullets = l1 ++ b :: l2)
    (ho : o ∈ g.obstacles) (hoalive : o.alive = true)
    (hdes : ∀ o' ∈ g.obstacles, o'.destructible = true)
    (hba : b.alive = true) (hbx : b.x = o.x) (hby : b.y = o.y)
    (hfirst : ∀ b' ∈ l1, ¬(b'.alive = true ∧ b'.x = o.x ∧ b'.y = o.y)) :
    (∀ b' ∈ g.check_collisions.bullets, b'.alive = true) ∧
    (∀ o' ∈ g.check_collisions.obstacles, o'.alive = true) ∧
    (∀ o' ∈ g.check_collisions.obstacles, ¬(o'.x = o.x ∧ o'.y = o.y)) ∧
    (∃ b', (checkBulletsLoop g.collisionAcc g.bullets).2.get? l1.length = some b' ∧
      b'.alive = false) := by
  refine ⟨?_, ?_, ?_, ?_⟩
  · intro b' hb'
    simp only [Game.check_collisions] at hb'
    exact (List.mem_filter.mp hb').2
  · intro o' ho'
    simp only [Game.check_collisions] at ho'
    exact (List.mem_filter.mp ho').2
  · intro o' ho' hc
    simp only [Game.check_collisions] at ho'
    obtain ⟨hmem, halive⟩ := List.mem_filter.mp ho'
    obtain ⟨i, hi⟩ := List.mem_iff_get?.mp hmem
    have hlt : i < (checkBulletsLoop g.collisionAcc g.bullets).1.obstacles.length :=
      (List.get?_eq_some.mp hi).1
    have hlen : i < g.collisionAcc.obstacles.length := by
      rw [← checkBulletsLoop_obstacles_length g.bullets g.collisionAcc]
      exact hlt
    obtain ⟨oi, hoi⟩ : ∃ oi, g.collisionAcc.obstacles.get? i = some oi :=
      ⟨_, List.get?_eq_get hlen⟩
    obtain ⟨o'', e1, e2, e3, -, -, e6, -⟩ :=
      checkBulletsLoop_obstacle_track g.bullets g.collisionAcc i oi hoi
    have heq : o'' = o' := by
      rw [e1] at hi
      exact Option.some.inj hi
    have hoimem : oi ∈ g.obstacles := List.get?_mem hoi
    have hoix : oi.x = o.x := by
      rw [← e2, heq]
      exact hc.1
    have hoiy : oi.y = o.y := by
      rw [← e3, heq]
      exact hc.2
    have hkill : o''.alive = false := by
      refine e6 (hdes oi hoimem) ⟨b, ?_, hba, ?_, ?_⟩
      · rw [hsplit]
        exact List.mem_append_right _ (List.mem_cons_self _ _)
      · rw [hbx, hoix]
      · rw [hby, hoiy]
    rw [heq] at hkill
    rw [hkill] at halive
    cases halive
  · rw [hsplit]
    exact checkBulletsLoop_kill_bullet l1 b l2 g.collisionAcc o.x o.y hba hbx hby
      ⟨o, ho, hoalive, rfl, rfl⟩ hfirst

/-- C8: `shoot` produces nothing when the cooldown forbids firing; a
successful fire by a tank at (5, 10) heading up spawns exactly one
projectile at (5, 9) carrying that heading, and after three advance
steps (each with strictly more than 0.1 s elapsed, 0.3 s total) the
unobstructed projectile is at (5, 6) and still alive. -/
theorem C8_fire (t : Tank) (now t1 t2 t3 : ℚ)
    (hx : t.x = 5) (hy : t.y = 10) (hdir : t.direction = Direction.up)
    (hfire : now - t.last_shot_time > t.shot_cooldown)
    (h1 : t1 - now > 1/10) (h2 : t2 - t1 > 1/10) (h3 : t3 - t2 > 1/10) :
    (∀ (u : Tank) (m : ℚ), ¬(m - u.last_shot_time > u.shot_cooldown) →
      (u.shoot m).1 = none) ∧
    ∃ b : Bullet, (t.shoot now).1 = some b ∧ b.x = 5 ∧ b.y = 9 ∧
      b.direction = Direction.up ∧
      (((b.update t1 80 24).update t2 80 24).update t3 80 24).x = 5 ∧
      (((b.update t1 80 24).update t2 80 24).update t3 80 24).y = 6 ∧
      (((b.update t1 80 24).update t2 80 24).update t3 80 24).alive = true := by
  constructor
  · intro u m hm
    unfold Tank.shoot Tank.can_shoot
    rw [if_neg hm]
    simp
  · have e0 : t.can_shoot now = (true, { t with last_shot_time := now }) := by
      unfold Tank.can_shoot
      rw [if_pos hfire]
    refine ⟨Bullet.mk 5 9 '•' true Direction.up (1/10) now, ?_, rfl, rfl, rfl, ?_⟩
    · unfold Tank.shoot
      rw [e0]
      norm_num [Bullet.init, hdir, Direction.value, hx, hy]
    · have eu1 : (Bullet.mk 5 9 '•' true Direction.up (1/10) now).update t1 80 24 =
          Bullet.mk 5 8 '•' true Direction.up (1/10) t1 := by
        unfold Bullet.update
        rw [if_pos (by simpa using h1)]
        norm_num [Direction.value]
      have eu2 : (Bullet.mk 5 8 '•' true Direction.up (1/10) t1).update t2 80 24 =
          Bullet.mk 5 7 '•' true Direction.up (1/10) t2 := by
        unfold Bullet.update
        rw [if_pos (by simpa using h2)]
        norm_num [Direction.value]
      have eu3 : (Bullet.mk 5 7 '•' true Direction.up (1/10) t2).update t3 80 24 =
          Bullet.mk 5 6 '•' true Direction.up (1/10) t3 := by
        unfold Bullet.update
        rw [if_pos (by simpa using h3)]
        norm_num [Direction.value]
      rw [eu1, eu2, eu3]
      exact ⟨rfl, rfl, rfl⟩

/-- C9: a tick processes the single key of its one non-blocking read:
key `-1` (no pending input) is a no-op, and `handle_input` equals the
spec-shaped dispatch `applyGameAction` after `specKeyAction`, which decodes
every key to at most one logical action of one player (or the global quit);
in particular no key ever changes both players. -/
theorem C9_input (g : Game) (key : Int) (now : ℚ) :
    g.handle_input (-1) now = g ∧
    g.handle_input key now = applyGameAction g (specKeyAction key) now ∧
    ((g.handle_input key now).player1 = g.player1 ∨
      (g.handle_input key now).player2 = g.player2) := by
  refine ⟨?_, handleInput_spec g key now, ?_⟩
  · norm_num [Game.handle_input]
  · rw [handleInput_spec g key now]
    rcases ha : specKeyAction key with _ | a
    · left
      rfl
    · rcases a with a | a | _
      · right
        rfl
      · left
        rfl
      · left
        rfl

/-- C10: a tank standing adjacent to the border and facing it spawns, on a
successful fire, a projectile on the border cell itself which is alive at
creation (boundary expiry is never evaluated at creation); the projectile
stays unchanged while the 0.1 s gate fails, and on its first actual advance
it moves off the grid and only then dies. -/
theorem C10_border (t : Tank) (now now2 : ℚ) (max_x max_y : Int)
    (hx : t.x = 1) (hdir : t.direction = Direction.left)
    (hfire : now - t.last_shot_time > t.shot_cooldown) :
    ∃ b : Bullet, (t.shoot now).1 = some b ∧ b.x = 0 ∧ b.y = t.y ∧ b.alive = true ∧
      (¬(now2 - now > 1/10) → b.update now2 max_x max_y = b) ∧
      (now2 - now > 1/10 →
        (b.update now2 max_x max_y).x = -1 ∧ (b.update now2 max_x max_y).alive = false) := by
  have e1 : t.can_shoot now = (true, { t with last_shot_time := now }) := by
    unfold Tank.can_shoot
    rw [if_pos hfire]
  refine ⟨Bullet.mk 0 t.y '•' true Direction.left (1/10) now, ?_, rfl, rfl, rfl, ?_, ?_⟩
  · unfold Tank.shoot
    rw [e1]
    simp [Bullet.init, hdir, Direction.value, hx]
  · intro h
    unfold Bullet.update
    rw [if_neg h]
  · intro h
    unfold Bullet.update
    rw [if_pos h]
    norm_num [Direction.value]

/-- C1 witness: the amended theorem applied to a concrete accumulator with
the tanks on distinct cells and no obstacles. -/
theorem C1_witness :
    ((checkBullet accC1 bC1).1.player1 = accC1.player1 ∧
      (checkBullet accC1 bC1).1.player2 = accC1.player2) ∨
    ((checkBullet accC1 bC1).1.player1 = accC1.player1 ∧
      (checkBullet accC1 bC1).1.obstacles = accC1.obstacles) ∨
    ((checkBullet accC1 bC1).1.player2 = accC1.player2 ∧
      (checkBullet accC1 bC1).1.obstacles = accC1.obstacles) :=
  C1_amended accC1 bC1 (by decide)
    (fun o ho => absurd ho (List.not_mem_nil o))
    (fun o ho => absurd ho (List.not_mem_nil o))

/-- C2 witness: the invariant and per-tick monotonicity at the freshly
initialised 80 by 24 session. -/
theorem C2_witness :
    Game.Inv (Game.init 80 24 []) ∧
    ((Game.init 80 24 []).step (-1) 0).player1.health ≤
      (Game.init 80 24 []).player1.health ∧
    ((Game.init 80 24 []).step (-1) 0).player2.health ≤
      (Game.init 80 24 []).player2.health :=
  C2_health (Game.init 80 24 []) (-1) 0 (Reachable.init 80 24 [])

/-- C3 witness: an accepted unit step to the right from (5, 5) in an
80 by 24 arena. -/
theorem C3_witness :
    ((Tank.init 5 5 '^' 1).move 1 0 80 24).x = (Tank.init 5 5 '^' 1).x + 1 ∧
    ((Tank.init 5 5 '^' 1).move 1 0 80 24).direction = Direction.right ∧
    ((Tank.init 5 5 '^' 1).move 1 0 80 24).symbol = '>' := by
  have h := (C3_move (Tank.init 5 5 '^' 1) 1 0 80 24 (Or.inr ⟨rfl, Or.inl rfl⟩)).2
    (by decide)
  exact ⟨h.1, (h.2.2.2.2.2.2.1 rfl).1, (h.2.2.2.2.2.2.1 rfl).2⟩

/-- C4 witness: a fresh tank may fire at time 1 (one second past its last
shot at time 0). -/
theorem C4_witness : ((Tank.init 5 5 '^' 1).can_shoot 1).1 = true := by
  have h := C4_cooldown (Tank.init 5 5 '^' 1) 1 2 rfl
  exact h.1.mpr (by norm_num [Tank.init])

/-- C5 witness: in `gC5` the live bullet on player 1's cell kills the
health-1 tank, ends the game and names Player 2 the winner. -/
theorem C5_witness :
    gC5.check_collisions.player1.health = 0 ∧
    gC5.check_collisions.player1.alive = false ∧
    gC5.check_collisions.game_over = true ∧
    gC5.check_collisions.winner = some "Player 2" :=
  (C5_tank_kill gC5).1
    ⟨rfl, rfl, ⟨Bullet.init 5 5 Direction.up 0, List.mem_singleton.mpr rfl, rfl, rfl, rfl⟩, by decide⟩

/-- C6 witness: a bullet created at time 0 advances at time 1 in an
80 by 24 arena. -/
theorem C6_witness :
    ((Bullet.init 5 5 Direction.up 0).update 1 80 24).last_move_time = 1 ∧
    ((Bullet.init 5 5 Direction.up 0).update 1 80 24).direction =
      (Bullet.init 5 5 Direction.up 0).direction := by
  have h := (C6_bullet (Bullet.init 5 5 Direction.up 0) 1 80 24 rfl).1
    (by norm_num [Bullet.init])
  exact ⟨h.2.2.1, h.2.2.2.1⟩

/-- C7 witness: in `gC7` the striking bullet's processed slot is dead and
the struck obstacle's collection compacts to empty. -/
theorem C7_witness :
    (∃ b', (checkBulletsLoop gC7.collisionAcc gC7.bullets).2.get? 0 = some b' ∧
      b'.alive = false) ∧
    gC7.check_collisions.obstacles = [] := by
  refine ⟨?_, by decide⟩
  have h := C7_compaction gC7 oC7 [] [] bC7 rfl (List.mem_singleton.mpr rfl) rfl (by decide) rfl rfl rfl
    (fun b' hb' => absurd hb' (List.not_mem_nil b'))
  exact h.2.2.2

/-- C8 witness: the (5, 10) scenario fired at time 1, advanced at times
1.2, 1.4 and 1.6. -/
theorem C8_witness :
    (∀ (u : Tank) (m : ℚ), ¬(m - u.last_shot_time > u.shot_cooldown) →
      (u.shoot m).1 = none) ∧
    ∃ b, ((Tank.init 5 10 '^' 1).shoot 1).1 = some b ∧ b.x = 5 ∧ b.y = 9 ∧
      b.direction = Direction.up ∧
      (((b.update (6/5) 80 24).update (7/5) 80 24).update (8/5) 80 24).x = 5 ∧
      (((b.update (6/5) 80 24).update (7/5) 80 24).update (8/5) 80 24).y = 6 ∧
      (((b.update (6/5) 80 24).update (7/5) 80 24).update (8/5) 80 24).alive = true :=
  C8_fire (Tank.init 5 10 '^' 1) 1 (6/5) (7/5) (8/5) rfl rfl rfl
    (by norm_num [Tank.init]) (by norm_num) (by norm_num) (by norm_num)

/-- C10 witness: the border-adjacent tank `tC10` fires at time 1; the bullet
appears on the border cell alive, and its advance at time 2 expires it. -/
theorem C10_witness :
    ∃ b, (tC10.shoot 1).1 = some b ∧ b.x = 0 ∧ b.y = tC10.y ∧ b.alive = true ∧
      (¬((2 : ℚ) - 1 > 1/10) → b.update 2 80 24 = b) ∧
      ((2 : ℚ) - 1 > 1/10 →
        (b.update 2 80 24).x = -1 ∧ (b.update 2 80 24).alive = false) :=
  C10_border tC10 1 2 80 24 rfl rfl (by norm_num [tC10, Tank.init])
